import Mathlib

/-
Shallow embedding of the cleathlete classification resolution engine.

The repository contains two implementations of the engine:
  * scripts/judge.py        (namespace Py below)
  * scripts/judge_legacy.py (namespace Legacy below)
Both are embedded faithfully, tier by tier.  Reference tables (the CSV
files loaded at startup) are modelled as lists of row structures; the
normalisation the loader applies to a column is applied at match time to
the raw cell, which is extensionally the same.  The external RxNorm /
RxClass service is modelled as an oracle record of total functions: in
the Python source every network call is wrapped in try/except blocks
that convert any transport error or malformed response into None or an
empty list, so the service boundary seen by the engine is total.

Machine reals (Python floats for doses and thresholds) are modelled as
rationals; Python numeral formatting inside reason strings is modelled
with toString, which agrees on the integer-valued data the claims use.
All string operations are implemented over the character list of the
string so that concrete runs of the engine reduce inside the kernel.
-/

namespace Cleathlete

/-- A pending question for the caller: one entry of the `need` list of an
ask result, Python dict with keys field / options / hint (options may be
absent, modelled as `none`). -/
structure Need where
  field : String
  options : Option (List String)
  hint : String
deriving DecidableEq

/-- Engine result: either a terminal traffic-light verdict
(status "final" with color and reason) or a request for more input
(status "ask" with a provisional color, a reason and the needed fields). -/
inductive Verdict where
  | final (color : String) (reason : String)
  | ask (provisional_color : String) (reason : String) (need : List Need)
deriving DecidableEq

/-- True exactly on the ask constructor. -/
def isAskV : Verdict → Bool
  | .ask _ _ _ => true
  | .final _ _ => false

/- ===================== string utilities =====================
Implemented over the character data of the string (the core String
functions based on byte positions do not reduce in the kernel). -/

/-- Character-level model of the word characters of the regex
word-boundary class: letters, digits and the underscore. -/
def isWordChar (c : Char) : Bool := c.isAlphanum || c == '_'

/-- Drop leading whitespace, as Python lstrip. -/
def trimLeftD (l : List Char) : List Char := l.dropWhile Char.isWhitespace

/-- Drop trailing whitespace, as Python rstrip. -/
def trimRightD (l : List Char) : List Char :=
  (l.reverse.dropWhile Char.isWhitespace).reverse

/-- Python str.strip on character lists. -/
def stripD (l : List Char) : List Char := trimRightD (trimLeftD l)

/-- Python str.strip. -/
def trimS (s : String) : String := String.mk (stripD s.data)

/-- Python str.lower (ASCII, as the terms in the reference data). -/
def lowerS (s : String) : String := String.mk (s.data.map Char.toLower)

/-- Python str.upper (ASCII). -/
def upperS (s : String) : String := String.mk (s.data.map Char.toUpper)

/-- Split a character list at every semicolon, Python str.split(";"). -/
def splitSemiD : List Char → List Char → List (List Char)
  | [], cur => [cur.reverse]
  | c :: cs, cur => if c == ';' then cur.reverse :: splitSemiD cs [] else splitSemiD cs (c :: cur)

/-- Python s.split(";") producing strings. -/
def splitSemiS (s : String) : List String := (splitSemiD s.data []).map String.mk

/-- Python code.startswith(p). -/
def startsWithS (s p : String) : Bool := p.data.isPrefixOf s.data

/-- Membership test of an optional string in a string list; Python
`x in lst` where x may be None (None is never a member). -/
def optMem : Option String → List String → Bool
  | none, _ => false
  | some x, l => l.contains x

/-- Python " / ".join style joining. -/
def joinSep (sep : String) : List String → String
  | [] => ""
  | [x] => x
  | x :: rest => x ++ sep ++ joinSep sep rest

/-- Shared helper of both engines: `_split_semicol`, splitting a
semicolon-separated cell into trimmed lower-cased non-empty tokens. -/
def splitSemicol (s : String) : List String :=
  ((splitSemiS s).map (fun x => lowerS (trimS x))).filter (fun x => x ≠ "")

/-- `_norm` of judge.py: `(s or "").strip().lower()` (also the
lower-then-strip normalisation the loader applies to key columns, which
is the same function). -/
def normPy (s : String) : String := lowerS (trimS s)

/-- Python int() on the non-negative float thresholds of the data
(truncation towards zero, which is floor on non-negative values). -/
def pyInt (q : ℚ) : Int := Rat.floor q

/-- The deduplication loop both aggregators run over collected need
entries: keep a need only if its field name was not seen before. -/
def dedupNeeds (seen : List String) : List Need → List Need
  | [] => []
  | n :: rest =>
    if seen.contains n.field then dedupNeeds seen rest
    else n :: dedupNeeds (n.field :: seen) rest

namespace Py

/- ===================== scripts/judge.py ===================== -/

/-- One row of any of the six INN CSV files of judge.py; columns a
given file does not carry are "" / none (pandas .get defaults). The
maximum_dose cell is parsed by the loader with float(), try/except to
None; urine_threshold_ng_ml is carried by the data but never read by
judge.py (it is read by judge_legacy.py). -/
structure SubstanceRow where
  inn : String
  aliases : String
  section_code : String
  permitted_route : String
  prohibited_route : String
  maximum_dose : Option ℚ
  urine_threshold_ng_ml : Option ℚ
deriving DecidableEq

/-- substances_cache.csv row (columns judge.py reads). -/
structure CacheSubRow where
  inn : String
  aliases : String
  mapped_section_code : String
deriving DecidableEq

/-- sections.csv row (columns judge.py reads). -/
structure SectionRow where
  section_code : String
  permitted_route : String
  prohibited_route : String
deriving DecidableEq

/-- sports_rules.csv row (columns judge.py reads). -/
structure SportRow where
  sport_code : String
  prohibited_period : String
deriving DecidableEq

/-- product_compositions.csv row. -/
structure ProdRow where
  brand_name : String
  list_name : String
  aliases : String
deriving DecidableEq

/-- classes_map.csv / allowed_class.csv row (label matching columns). -/
structure LabelRow where
  source_label : String
  mapped_section_code : String
deriving DecidableEq

/-- The process-wide reference index DF of judge.py. -/
structure Tables where
  always_green : List SubstanceRow
  always_red : List SubstanceRow
  ask_route_and_dose : List SubstanceRow
  ask_period : List SubstanceRow
  ask_period_and_route : List SubstanceRow
  ask_period_and_urine_caution : List SubstanceRow
  sections : List SectionRow
  sports : List SportRow
  cache_sub : List CacheSubRow
  cache_prod : List ProdRow
  classes_map : List LabelRow
  allowed_class : List LabelRow

/-- The route alias dictionary of `_canonical_route`. -/
def routeAliases : List (String × String) :=
  [("nasal", "intranasal"), ("nose", "intranasal"), ("skin", "dermal"),
   ("eye", "ophthalmic"), ("ear", "otic"), ("mouth", "oromucosal"),
   ("buccal", "oromucosal"), ("gingival", "oromucosal"),
   ("sublingual", "oromucosal"), ("topical", "topical"),
   ("inhalation", "inhaled"), ("inhaled", "inhaled"), ("rectum", "rectal"),
   ("oral", "oral"), ("po", "oral"), ("iv", "injectable"),
   ("im", "injectable"), ("sc", "injectable"), ("injectable", "injectable"),
   ("perianal", "perianal"), ("ophthalmological", "ophthalmic"),
   ("dental-intracanal", "dental-intracanal")]

/-- `_canonical_route`: falsy input (None or "") gives None, otherwise
the normalised route is looked up in the alias table, defaulting to
itself. -/
def canonicalRoute : Option String → Option String
  | none => none
  | some s =>
    if s = "" then none
    else
      let r := Cleathlete.normPy s
      some ((routeAliases.lookup r).getD r)

/-- `_ensure_period`: canonicalise to "in" / "out" / None. -/
def ensurePeriod : Option String → Option String
  | none => none
  | some s =>
    if s = "" then none
    else
      let p := Cleathlete.normPy s
      if ["in", "in-comp", "incompetition", "in_comp", "comp"].contains p then some "in"
      else if ["out", "out-comp", "out_comp"].contains p then some "out"
      else none

/-- `_match_inn`: first row whose normalised inn equals the term or
whose alias list contains it. -/
def matchInn (rows : List SubstanceRow) (t : String) : Option SubstanceRow :=
  rows.find? (fun r =>
    Cleathlete.normPy r.inn == t || (Cleathlete.splitSemicol r.aliases).contains t)

/-- Python list(set(xs)) used for the offered route options.  CPython
iterates a string set in an unspecified (hash-seeded) order; the model
determinises it by keeping the first occurrence of each element, which
is extensionally a set in some order. -/
def pySet (l : List String) : List String := l.eraseDups

/-- The f-string suffix `f' ({sec})' if sec else ''` of the allow / deny
tier reasons. -/
def secSuffix (sec : String) : String := if sec ≠ "" then " (" ++ sec ++ ")" else ""

/-- Default route option lists offered when a tier declares none. -/
def defaultRoutes1 : List String :=
  ["inhaled", "oral", "injectable", "topical", "nasal", "ophthalmic", "otic",
   "rectal", "oromucosal"]

/-- Default route option list of the period-and-route and S9 branches. -/
def defaultRoutes2 : List String :=
  ["inhaled", "oral", "injectable", "rectal", "oromucosal", "nasal", "topical",
   "ophthalmic", "otic", "perianal", "dental-intracanal"]

/-- Hint string of the dose question. -/
def doseHint (m : ℚ) : String := "24h total dose (max " ++ toString m ++ ")"

/-- The sections.csv row whose upper-cased section_code is S9. -/
def sectionsS9 (tbl : Tables) : Option SectionRow :=
  tbl.sections.find? (fun s => Cleathlete.upperS s.section_code == "S9")

/-- The first sports_rules.csv row matching the sport code
(both sides stripped and upper-cased as in `_judge_by_cache`). -/
def sportsFind (tbl : Tables) (sport : String) : Option SportRow :=
  tbl.sports.find? (fun s =>
    Cleathlete.upperS (Cleathlete.trimS s.sport_code) == Cleathlete.upperS sport)

/-- The period question dict both engines build. -/
def periodNeed : Need := ⟨"period", some ["in", "out"], "In-competition?"⟩

open Cleathlete in
/-- The P1 sport-override branch, duplicated verbatim between
`_judge_by_cache` and `_judge_by_cachelike_section`: consult the sport
rule (defaulting to "in"), red unconditionally for "both", otherwise
ask for the period and apply the in/out coloring. -/
def p1Branch (tbl : Tables) (sport : String) (period : Option String) : Verdict :=
  let period_rule :=
    match sportsFind tbl sport with
    | some srow => lowerS (trimS srow.prohibited_period)
    | none => "in"
  if period_rule = "both" then .final "red" "P1 prohibited in this sport (both)."
  else
    match ensurePeriod period with
    | none => .ask "yellow" "Period required for P1." [periodNeed]
    | some p => .final (if p == "in" then "red" else "green") "P1 period rule."

open Cleathlete in
/-- The S6/S7/S8 period branch, duplicated verbatim between
`_judge_by_cache` and `_judge_by_cachelike_section`. -/
def s68Branch (sec : String) (period : Option String) : Verdict :=
  match ensurePeriod period with
  | none => .ask "yellow" (sec ++ " period rule.") [periodNeed]
  | some p => .final (if p == "in" then "red" else "green") (sec ++ " period rule.")

open Cleathlete in
/-- The S9 period-and-route branch, duplicated verbatim between
`_judge_by_cache` and `_judge_by_cachelike_section`: ask for the
period, green out of competition, otherwise resolve the route against
the default S9 route sets of sections.csv. -/
def s9Branch (tbl : Tables) (period route : Option String) : Verdict :=
  match ensurePeriod period with
  | none => .ask "yellow" "S9 period required." [periodNeed]
  | some p =>
    let pair :=
      match sectionsS9 tbl with
      | some s => (splitSemicol s.permitted_route, splitSemicol s.prohibited_route)
      | none => (([] : List String), ([] : List String))
    if p == "out" then .final "green" "S9 out-of-competition permitted (within label)."
    else if route = none then
      let opts := pySet (pair.1 ++ pair.2)
      .ask "yellow" "S9 route required."
        [⟨"route", some (if opts.isEmpty then defaultRoutes2 else opts), "Select route"⟩]
    else
      let rt := canonicalRoute route
      if optMem rt pair.2 then .final "red" "S9 prohibited route in-competition."
      else .final "green" "S9 permitted route in-competition."

open Cleathlete in
/-- `_judge_by_6csv`: the six INN-keyed CSV tiers, in source order. -/
def judge_by_6csv (tbl : Tables) (t : String) (_sport : String)
    (period route : Option String) (dose : Option ℚ) : Option Verdict :=
  -- 1) always_green
  match matchInn tbl.always_green t with
  | some r => some (.final "green" ("Always allowed" ++ secSuffix r.section_code ++ "."))
  | none =>
  -- 2) always_red
  match matchInn tbl.always_red t with
  | some r => some (.final "red" ("Always prohibited" ++ secSuffix r.section_code ++ "."))
  | none =>
  -- 3) ask_route_and_dose
  match matchInn tbl.ask_route_and_dose t with
  | some r =>
    let permitted := splitSemicol r.permitted_route
    let prohibited := splitSemicol r.prohibited_route
    let asksRoute : List Need :=
      if route = none then
        let opts := pySet (permitted ++ prohibited)
        [⟨"route", some (if opts.isEmpty then defaultRoutes1 else opts), "Select route"⟩]
      else []
    let asksDose : List Need :=
      match r.maximum_dose with
      | some m => if dose = none then [⟨"dose_24h", none, doseHint m⟩] else []
      | none => []
    let asks := asksRoute ++ asksDose
    if !asks.isEmpty then some (.ask "yellow" "Route and/or dose required." asks)
    else
      let rt := canonicalRoute route
      if !prohibited.isEmpty && optMem rt prohibited then
        some (.final "red" "Prohibited by route.")
      else if !permitted.isEmpty && !optMem rt permitted then
        some (.final "red" "Unsupported route for this substance.")
      else
        match r.maximum_dose with
        | some m =>
          match dose with
          | some d =>
            if d > m then
              some (.final "red" ("Dose exceeds limit (" ++ toString d ++ " > " ++ toString m ++ ")."))
            else some (.final "green" "Within permitted route/dose.")
          | none => some (.ask "yellow" "Dose required." [⟨"dose_24h", none, doseHint m⟩])
        | none => some (.final "green" "Within permitted route/dose.")
  | none =>
  -- 4) ask_period
  match matchInn tbl.ask_period t with
  | some r =>
    match ensurePeriod period with
    | none => some (.ask "yellow" "Period required." [periodNeed])
    | some p =>
      some (.final (if p == "in" then "red" else "green") (r.section_code ++ " period rule."))
  | none =>
  -- 5) ask_period_and_route
  match matchInn tbl.ask_period_and_route t with
  | some r =>
    match ensurePeriod period with
    | none => some (.ask "yellow" "Period required." [periodNeed])
    | some p =>
      let permitted0 := splitSemicol r.permitted_route
      let prohibited0 := splitSemicol r.prohibited_route
      let pair :=
        if permitted0.isEmpty && prohibited0.isEmpty then
          match sectionsS9 tbl with
          | some s => (splitSemicol s.permitted_route, splitSemicol s.prohibited_route)
          | none => (permitted0, prohibited0)
        else (permitted0, prohibited0)
      if p == "out" then some (.final "green" "Out-of-competition permitted.")
      else if route = none then
        let opts := pySet (pair.1 ++ pair.2)
        some (.ask "yellow" "Route required."
          [⟨"route", some (if opts.isEmpty then defaultRoutes2 else opts), "Select route"⟩])
      else
        let rt := canonicalRoute route
        if optMem rt pair.2 then some (.final "red" "Prohibited route in-competition.")
        else some (.final "green" "Permitted route in-competition.")
  | none =>
  -- 6) ask_period_and_urine_caution
  match matchInn tbl.ask_period_and_urine_caution t with
  | some _ =>
    match ensurePeriod period with
    | none => some (.ask "yellow" "Period required." [periodNeed])
    | some p =>
      if p == "in" then some (.final "yellow" "Urine threshold caution applies in-competition.")
      else some (.final "green" "Out-of-competition permitted.")
  | none => none

open Cleathlete in
/-- The cache_sub row matching the term on inn or aliases. -/
def cacheMatch (rows : List CacheSubRow) (t : String) : Option CacheSubRow :=
  rows.find? (fun r => normPy r.inn == t || (splitSemicol r.aliases).contains t)

open Cleathlete in
/-- `_judge_by_cache`: the pre-classified substances_cache tier. -/
def judge_by_cache (tbl : Tables) (t : String) (sport : String)
    (period route : Option String) (_dose : Option ℚ) : Option Verdict :=
  match cacheMatch tbl.cache_sub t with
  | none => none
  | some r =>
    let sec := upperS (trimS r.mapped_section_code)
    if sec = "" then none
    else if sec = "ALLOWED" then some (.final "green" "Allowed class (cache).")
    else if sec = "S0" then some (.final "red" "Unknown/Unapproved (S0) via cache.")
    else if sec = "P1" then some (p1Branch tbl sport period)
    else if ["S1", "S2", "S3", "S4", "S5"].contains sec then
      some (.final "red" (sec ++ " prohibited."))
    else if ["S6", "S7", "S8"].contains sec then some (s68Branch sec period)
    else if sec = "S9" then some (s9Branch tbl period route)
    else none

open Cleathlete in
/-- The per-ingredient aggregation loop shared verbatim by
`_judge_by_brand_cache` and the combination branch of
`_judge_by_external` (the source duplicates it): collect need entries
and per-ingredient reasons, short-circuit on any red final, and close
with a deduplicated ask (provisional color literally "yellow") or a
green final joining the reasons.  `recurse` is the recursive call to
judge with the surrounding sport / period / route / dose context and
depth + 1 already applied. -/
def brandLoop (recurse : String → Verdict) :
    List String → List String → List Need → Verdict
  | [], reasons, asks =>
    if !asks.isEmpty then .ask "yellow" (joinSep " / " reasons) (dedupNeeds [] asks)
    else .final "green" (if !reasons.isEmpty then joinSep " / " reasons else "All components allowed")
  | inn :: rest, reasons, asks =>
    match recurse inn with
    | .ask _ _ need =>
      brandLoop recurse rest
        (reasons ++ [inn ++ ": needs " ++ joinSep ", " (need.map Need.field)])
        (asks ++ need)
    | .final c rsn =>
      if c == "red" then .final c rsn
      else brandLoop recurse rest (reasons ++ [inn ++ ": " ++ rsn]) asks

open Cleathlete in
/-- `_judge_by_brand_cache`: resolve a brand via product_compositions
and aggregate the recursive per-ingredient verdicts. -/
def judge_by_brand_cache (recurse : String → Verdict) (tbl : Tables)
    (t : String) : Option Verdict :=
  match tbl.cache_prod.find? (fun r =>
      normPy r.brand_name == t || (splitSemicol r.aliases).contains t) with
  | none => none
  | some row =>
    let inns := splitSemicol row.list_name
    if inns.isEmpty then none
    else some (brandLoop recurse inns [] [])

/-- The external classification lookup service of judge.py
(`_rxnorm_find_rxcui`, `_rxnorm_related_in`, `_rxclass_labels_by_rxcui`).
In the source each of these wraps its network calls in try/except and
returns None / [] on any error, so the interface the engine sees is a
total function into Option / List; any failure mode (timeout, transport
error, malformed response) is a `none` or `[]` value of the oracle. -/
structure ExtService where
  findRxcui : String → Option String
  relatedIn : String → List (String × String)
  classLabels : String → List String

open Cleathlete in
/-- `_map_labels_to_section`: first classes_map row whose normalised
label is among the queried labels. -/
def map_labels_to_section (tbl : Tables) (labels : List String) : Option String :=
  if labels.isEmpty || tbl.classes_map.isEmpty then none
  else
    let labs := labels.map (fun l => normPy l)
    match tbl.classes_map.find? (fun r => labs.contains (normPy r.source_label)) with
    | some r => some (upperS (trimS r.mapped_section_code))
    | none => none

open Cleathlete in
/-- `_labels_allowed`: some allowed_class row label is among the
queried labels. -/
def labels_allowed (tbl : Tables) (labels : List String) : Bool :=
  if tbl.allowed_class.isEmpty || labels.isEmpty then false
  else tbl.allowed_class.any (fun r =>
    (labels.map (fun l => normPy l)).contains (normPy r.source_label))

open Cleathlete in
/-- `_judge_by_cachelike_section`: dispatch a resolved section code
through the same section logic as the cache tier (duplicated in the
source with slightly different reason strings). -/
def judge_by_cachelike_section (tbl : Tables) (sec0 : String)
    (period route : Option String) (sport : String) : Verdict :=
  let sec := upperS (trimS sec0)
  if sec = "ALLOWED" then .final "green" "Allowed class."
  else if sec = "S0" then .final "red" "Unknown/Unapproved (S0)."
  else if sec = "P1" then p1Branch tbl sport period
  else if ["S1", "S2", "S3", "S4", "S5"].contains sec then
    .final "red" (sec ++ " prohibited.")
  else if ["S6", "S7", "S8"].contains sec then s68Branch sec period
  else if sec = "S9" then s9Branch tbl period route
  else .final "red" "Unknown section (S0)."

open Cleathlete in
/-- `_judge_by_external`: RxNorm resolution, combination decomposition
(the same aggregation loop as the brand tier), then RxClass labels
mapped through classes_map / allowed_class, fail-closed red otherwise.
It always returns a verdict (the Python function never returns None
when invoked). -/
def judge_by_external (recurse : String → Verdict) (tbl : Tables)
    (ext : ExtService) (t : String) (sport : String)
    (period route : Option String) (_dose : Option ℚ) : Verdict :=
  match ext.findRxcui t with
  | none => .final "red" "Not found in external data (S0). Possibly unapproved."
  | some rxcui =>
    if rxcui = "" then .final "red" "Not found in external data (S0). Possibly unapproved."
    else
      let ins := ext.relatedIn rxcui
      if ins.length ≥ 2 then brandLoop recurse (ins.map Prod.fst) [] []
      else
        let rxcuiIn := match ins with | i :: _ => i.2 | [] => rxcui
        let labels := ext.classLabels rxcuiIn
        match (if !labels.isEmpty then map_labels_to_section tbl labels else none) with
        | some sec => judge_by_cachelike_section tbl sec period route sport
        | none =>
          if labels_allowed tbl labels then .final "green" "Allowed pharmacologic class."
          else .final "red" "Unknown/Unmapped class (S0)."

open Cleathlete in
/-- The judge cascade, structurally recursive on a gas counter.  The
public entry point supplies gas = 7 - depth, so gas always exceeds the
remaining allowed recursion depth while depth is at most 6, and the gas
0 branch is only reached for depth at least 7, where the source returns
the same recursion-limit verdict as the depth check it models. -/
def judgeGas : Nat → Tables → Option ExtService → String → String →
    Option String → Option String → Option ℚ → Nat → Verdict
  | 0, _, _, _, _, _, _, _, _ => .final "red" "Recursion limit reached."
  | gas + 1, tbl, ext, term, sport, period, route, dose, depth =>
    if depth > 5 then .final "red" "Recursion limit reached."
    else
      let t := normPy term
      let p := ensurePeriod period
      let rt := canonicalRoute route
      match judge_by_6csv tbl t sport p rt dose with
      | some res => res
      | none =>
      match judge_by_cache tbl t sport p rt dose with
      | some res => res
      | none =>
      let recurse := fun inn => judgeGas gas tbl ext inn sport p rt dose (depth + 1)
      match judge_by_brand_cache recurse tbl t with
      | some res => res
      | none =>
      match ext with
      | some e => judge_by_external recurse tbl e t sport p rt dose
      | none => .final "red" "Not found (S0). Possibly unapproved."

/-- The public judge of judge.py (`requests` present iff ext is some). -/
def judge (tbl : Tables) (ext : Option ExtService) (term sport : String)
    (period route : Option String) (dose : Option ℚ) (depth : Nat) : Verdict :=
  judgeGas (7 - depth) tbl ext term sport period route dose depth

end Py

namespace Legacy

/- ===================== scripts/judge_legacy.py ===================== -/

/-- The six salt words of SALT_REGEX, as character lists. -/
def saltWords : List (List Char) :=
  ["hydrochloride".data, "bromide".data, "sulfate".data, "tartrate".data,
   "maleate".data, "hydrate".data]

/-- A maximal word run equal to a salt word. -/
def isSaltRun (run : List Char) : Bool := saltWords.contains run

/-- Keep a word run unless it is a salt word. -/
def saltFilter (run : List Char) : List Char := if isSaltRun run then [] else run

/-- Single pass of SALT_REGEX.sub("", s): acc is the current maximal
run of word characters; at each non-word character (and at the end) the
run is flushed, erased when it is exactly a salt word.  Because every
salt pattern is a word bounded by word boundaries on both sides, the
regex erases exactly the maximal word runs equal to a salt word. -/
def stripSaltsGo (acc : List Char) : List Char → List Char
  | [] => saltFilter acc
  | c :: cs =>
    if Cleathlete.isWordChar c then stripSaltsGo (acc ++ [c]) cs
    else saltFilter acc ++ c :: stripSaltsGo [] cs

/-- Replace each maximal whitespace run by a single space,
re.sub(r"\s+", " ", s). -/
def collapseGo : List Char → List Char
  | [] => []
  | [c] => if c.isWhitespace then [' '] else [c]
  | c :: d :: cs =>
    if c.isWhitespace && d.isWhitespace then collapseGo (d :: cs)
    else (if c.isWhitespace then ' ' else c) :: collapseGo (d :: cs)

/-- The `norm` pipeline of judge_legacy.py on character lists:
lower, strip, erase salt words, strip, collapse whitespace. -/
def normChars (l : List Char) : List Char :=
  collapseGo (Cleathlete.stripD (stripSaltsGo [] (Cleathlete.stripD (l.map Char.toLower))))

/-- `norm` of judge_legacy.py. -/
def norm (s : String) : String := String.mk (normChars s.data)

/-- always_green.csv / always_red.csv row (only inn is read). -/
structure LRow where
  inn : String
deriving DecidableEq

/-- ask_route_and_dose.csv row as judge_legacy.py reads it.  With
keep_default_na=False a column that is absent from the CSV reads as
None through Series.get which pd.notna rejects; present numeric cells
are floats (the Data Provider contract makes the records
schema-valid). -/
structure RDRow where
  inn : String
  permitted_route : String
  maximum_dose : ℚ
  dose_unit : String
  urine_threshold_ng_ml : Option ℚ
deriving DecidableEq

/-- ask_period.csv row. -/
structure PRow where
  inn : String
  section_code : String
  prohibited_period : String
deriving DecidableEq

/-- ask_period_and_route.csv row. -/
structure PRRow where
  inn : String
  permitted_route : String
  prohibited_route : String
deriving DecidableEq

/-- ask_period_and_urine_caution.csv row. -/
structure PURow where
  inn : String
  urine_threshold_ng_ml : ℚ
deriving DecidableEq

/-- substances_cache.csv row (legacy reads inn and atc_code). -/
structure CSRow where
  inn : String
  atc_code : String
deriving DecidableEq

/-- product_compositions.csv row (legacy reads brand_name, list_name). -/
structure CPRow where
  brand_name : String
  list_name : String
deriving DecidableEq

/-- sections.csv row (legacy reads section_code and the ATC prefix
column; the column name atc_code_prefix is shortened here). -/
structure SecRow where
  section_code : String
  atc_code_pfx : String
deriving DecidableEq

/-- allowed_atc_code_prefix.csv row. -/
structure ALRow where
  atc_code_pfx : String
deriving DecidableEq

/-- sports_rules.csv row (legacy reads these three columns; the third
column name carries the spelling of the source). -/
structure SpRow where
  sport_code : String
  prohibited_section : String
  prohibited_periodo : String
deriving DecidableEq

/-- The reference index df of judge_legacy.py. -/
structure LTables where
  green : List LRow
  route_dose : List RDRow
  period : List PRow
  period_route : List PRRow
  period_urine : List PURow
  red : List LRow
  cache_sub : List CSRow
  cache_prod : List CPRow
  sections : List SecRow
  allowed : List ALRow
  sports : List SpRow

/-- `_split_tokens`: semicolon split, strip, upper-case, drop empty. -/
def splitTokens (s : String) : List String :=
  ((Cleathlete.splitSemiS s).map (fun x => Cleathlete.upperS (Cleathlete.trimS x))).filter
    (fun x => x ≠ "")

/-- Python dict assignment mp[tok] = sec: update in place when the key
exists (its position stays at first insertion), append otherwise. -/
def insertTok (mp : List (String × String)) (tok sec : String) :
    List (String × String) :=
  if mp.any (fun p => p.1 == tok) then
    mp.map (fun p => if p.1 == tok then (tok, sec) else p)
  else mp ++ [(tok, sec)]

/-- The prefix-to-section dict of `_build_section_prefix_index`. -/
def buildSectionMap (rows : List SecRow) : List (String × String) :=
  rows.foldl
    (fun mp row =>
      (splitTokens row.atc_code_pfx).foldl
        (fun mp tok => insertTok mp tok (Cleathlete.trimS row.section_code)) mp)
    []

/-- Stable insertion keeping longer strings first; an earlier element
is inserted before later elements of equal length, which matches the
stable descending sort of the source. -/
def insertByLen (x : String) : List String → List String
  | [] => [x]
  | y :: ys => if y.data.length ≤ x.data.length then x :: y :: ys else y :: insertByLen x ys

/-- sorted(keys, key=len, reverse=True): a stable sort by descending
length. -/
def sortByLenDesc (l : List String) : List String := l.foldr insertByLen []

/-- The candidate prefixes of the section index, longest first. -/
def sectionKeys (rows : List SecRow) : List String :=
  sortByLenDesc ((buildSectionMap rows).map Prod.fst)

/-- The allowed ATC prefix set, longest first.  CPython accumulates the
tokens in a set whose iteration order is unspecified before the stable
sort; the model determinises ties by first encounter. -/
def allowedKeys (rows : List ALRow) : List String :=
  sortByLenDesc ((rows.foldl (fun acc r => acc ++ splitTokens r.atc_code_pfx) []).eraseDups)

/-- The fixed prohibited route set of the S9 branch of
`_section_fallback`. -/
def s9RedRoutes : List String :=
  ["oral", "injectable", "rectal", "oromucosal", "buccal", "gingival", "sublingual"]

/-- The verdict of a matched section inside `_section_fallback`; none
when the section code is outside the handled S1..S9 range (including
"" and P1), in which case control falls through to the allowed
prefixes. -/
def section_verdict (pfx sec : String) (period route : Option String) :
    Option Verdict :=
  if ["S1", "S2", "S3", "S4", "S5"].contains sec then
    some (.final "red" (sec ++ " class (ATC " ++ pfx ++ ")"))
  else if ["S6", "S7", "S8"].contains sec then
    some (.final (if period == some "in" then "red" else "green")
      (sec ++ " period rule (ATC " ++ pfx ++ ")"))
  else if sec == "S9" then
    if period == some "in" && Cleathlete.optMem route s9RedRoutes then
      some (.final "red" ("S9 prohibited route in-competition (ATC " ++ pfx ++ ")"))
    else some (.final "green" ("S9 permitted (ATC " ++ pfx ++ ")"))
  else none

/-- The allowed-prefix fallback at the tail of `_section_fallback`. -/
def allowed_fallback (tbl : LTables) (code : String) : Verdict :=
  match (allowedKeys tbl.allowed).find? (fun p => Cleathlete.startsWithS code p) with
  | some p => .final "green" ("Allowed ATC class (" ++ p ++ ")")
  | none => .final "red" "Unknown ATC class (S0-like)"

/-- `_section_fallback`: longest-prefix match of the upper-cased ATC
code against the section index, then the allowed prefixes, then the
fail-closed S0-like red. -/
def section_fallback (tbl : LTables) (atc : String)
    (period route : Option String) : Verdict :=
  let code := Cleathlete.upperS (Cleathlete.trimS atc)
  match (sectionKeys tbl.sections).find? (fun p => Cleathlete.startsWithS code p) with
  | some pfx =>
    match section_verdict pfx (((buildSectionMap tbl.sections).lookup pfx).getD "")
        period route with
    | some v => v
    | none => allowed_fallback tbl code
  | none => allowed_fallback tbl code

/-- Contiguous-subsequence test on character lists. -/
def containsSeq (pat : List Char) : List Char → Bool
  | [] => pat.isEmpty
  | c :: cs => pat.isPrefixOf (c :: cs) || containsSeq pat cs

/-- Python substring test `"S0" in s`. -/
def containsS0 (s : String) : Bool := containsSeq "S0".data s.data

/-- The final red of `_handle_product_brand` when unknown (S0-like)
components were deferred: the components are listed in the message. -/
def unknownMsg (unknown : List String) : String :=
  "この製品にはデータ未収載の成分があります：" ++ Cleathlete.joinSep "; " unknown ++
    "。成分の確認が済むまで使用を控えてください。"

open Cleathlete in
/-- The aggregation loop of `_handle_product_brand`, with its running
state: fc is final_color, then the reasons, the collected need entries
and the deferred unknown components.  A red whose reason does not
mention S0 short-circuits; an S0-like red is deferred into unknown; an
ask turns the provisional color yellow; a yellow final turns the final
color yellow.  At the end: a deduplicated ask if anything is needed,
else the red unknown-components message if any component was deferred,
else the aggregated green / yellow final. -/
def brandFold (recurse : String → Verdict) :
    List String → String → List String → List Need → List String → Verdict
  | [], fc, reasons, needs, unknown =>
    if !needs.isEmpty then
      .ask fc (if !reasons.isEmpty then joinSep " / " reasons else "Component requires input")
        (dedupNeeds [] needs)
    else if !unknown.isEmpty then .final "red" (unknownMsg unknown)
    else .final fc (if !reasons.isEmpty then joinSep " / " reasons else "All components allowed")
  | inn :: rest, fc, reasons, needs, unknown =>
    match recurse inn with
    | .ask _ _ need =>
      brandFold recurse rest "yellow"
        (reasons ++ [inn ++ ": needs " ++ joinSep ", " (need.map Need.field)])
        (needs ++ need) unknown
    | .final c r =>
      if c == "red" && !containsS0 r then .final c r
      else if c == "red" then brandFold recurse rest "yellow" reasons needs (unknown ++ [inn])
      else brandFold recurse rest (if c == "yellow" then "yellow" else fc)
        (reasons ++ [inn ++ ": " ++ r]) needs unknown

open Cleathlete in
/-- `_handle_product_brand`: brand lookup in product_compositions and
aggregation of the recursive per-ingredient verdicts (legacy judge has
no depth bound; the model receives the recursive call as recurse). -/
def handle_product_brand (recurse : String → Verdict) (tbl : LTables)
    (t : String) : Option Verdict :=
  match tbl.cache_prod.find? (fun r => normPy r.brand_name == t) with
  | none => none
  | some row => some (brandFold recurse (splitSemicol row.list_name) "green" [] [] [])

/-- The result shape of `rxnorm_lookup` of judge_legacy.py (kinds
none / single / combo); the oracle is total for the same try/except
reason as the judge.py service. -/
inductive LookupResult where
  | noneKind
  | single (inn : String) (rxcui : String) (atc : Option String)
  | combo (inn : String) (rxcui : String) (compositions : List (String × String))

open Cleathlete in
/-- The body of the legacy judge after term and sport normalisation;
t is norm(term) and sportNorm the stripped upper-cased de-spaced sport
code, recurse the recursive judge call of the brand handler. -/
def judgeLCore (recurse : String → Verdict) (tbl : LTables)
    (lk : String → LookupResult) (t sportNorm : String)
    (period route : Option String) (dose : Option ℚ) : Verdict :=
  -- 1) always green
  match tbl.green.find? (fun r => r.inn == t) with
  | some _ => .final "green" "Allowed by whitelist"
  | none =>
  -- 2) ask_route_and_dose
  match tbl.route_dose.find? (fun r => r.inn == t) with
  | some r =>
    if route.getD "" == "" then
      .ask "yellow" "S3 requires route check"
        [⟨"route", some [r.permitted_route], "Select administration route"⟩]
    else if r.permitted_route != "" && route != some r.permitted_route then
      .final "red" "Prohibited route for S3"
    else
      match dose with
      | none =>
        .ask "yellow" "S3 requires 24h dose check"
          [⟨"dose_24h", none,
            "24h total dose (max " ++ toString r.maximum_dose ++ " " ++ r.dose_unit ++ ")"⟩]
      | some d =>
        if d > r.maximum_dose then .final "red" "24h dose exceeds limit"
        else
          match r.urine_threshold_ng_ml with
          | some th =>
            (match period with
             | none =>
               .ask "yellow" "Urine threshold warning applies in-competition"
                 [⟨"period", some ["in", "out"], "In-competition?"⟩]
             | some p =>
               if p == "in" then
                 .final "yellow"
                   ("In-competition urine > " ++ toString (pyInt th) ++ " ng/mL ⇒ AAF unless PK study")
               else .final "green" "Within inhaled dose limit")
          | none => .final "green" "Within inhaled dose limit"
  | none =>
  -- 3) ask_period
  match tbl.period.find? (fun r => r.inn == t) with
  | some row =>
    if row.section_code == "P1" then
      let sportPeriodo :=
        match tbl.sports.find? (fun s =>
            s.prohibited_section == "P1" &&
            String.mk ((upperS s.sport_code).data.filter (fun c => c != ' ')) == sportNorm) with
        | some hit => hit.prohibited_periodo
        | none => row.prohibited_period
      if sportPeriodo == "both" then .final "red" "P1 beta-blocker prohibited in this sport (both)"
      else
        match period with
        | none => .ask "yellow" "P1 period rule" [⟨"period", some ["in", "out"], "In-competition?"⟩]
        | some p => .final (if p == "in" then "red" else "green") "P1 period rule (in only)"
    else
      match period with
      | none =>
        .ask "yellow" (row.section_code ++ " period rule")
          [⟨"period", some ["in", "out"], "In-competition?"⟩]
      | some p => .final (if p == "in" then "red" else "green") (row.section_code ++ " period rule")
  | none =>
  -- 4) ask_period_and_route
  match tbl.period_route.find? (fun r => r.inn == t) with
  | some pr =>
    (match period with
     | none => .ask "yellow" "Route/period rule" [⟨"period", some ["in", "out"], "In-competition?"⟩]
     | some p =>
       if p == "out" then .final "green" "Out-of-competition allowed"
       else if route.getD "" == "" then
         let opts := if pr.permitted_route != "" then splitSemiS pr.permitted_route else []
         .ask "yellow" "In-competition requires route decision"
           [⟨"route", (if opts.isEmpty then none else some opts), "Select administration route"⟩]
       else
         let redRoutes := if pr.prohibited_route != "" then splitSemiS pr.prohibited_route else []
         if optMem route redRoutes then .final "red" "Prohibited route in-competition"
         else .final "green" "Permitted route in-competition")
  | none =>
  -- 5) ask_period_and_urine_caution
  match tbl.period_urine.find? (fun r => r.inn == t) with
  | some row =>
    (match period with
     | none => .ask "yellow" "Urine threshold rule" [⟨"period", some ["in", "out"], "In-competition?"⟩]
     | some p =>
       if p == "in" then
         .final "yellow"
           ("In-competition urine > " ++ toString (pyInt row.urine_threshold_ng_ml) ++ " ng/mL ⇒ AAF")
       else .final "green" "Out-of-competition allowed")
  | none =>
  -- 6) always red
  match tbl.red.find? (fun r => r.inn == t) with
  | some _ => .final "red" "Always prohibited"
  | none =>
  -- 3-1 substances_cache
  match tbl.cache_sub.find? (fun r => r.inn == t) with
  | some row => section_fallback tbl row.atc_code period route
  | none =>
  -- 3-2 product brand
  match handle_product_brand recurse tbl t with
  | some v => v
  | none =>
  -- 3-3 external lookup
  match lk t with
  | .single _ _ (some atc) => section_fallback tbl atc period route
  | .single _ _ none => .final "red" "ATC not found via RxNorm (S0-like). Please verify."
  | .combo _ _ comps =>
    .final "red"
      ("この製品はデータベースに未収載です。成分が確認できるまで使用を控えてください。（候補成分: " ++
        joinSep "; " (comps.map Prod.fst) ++ "）")
  | .noneKind => .final "red" "Not found in RxNorm (S0). Possibly unapproved."

open Cleathlete in
/-- The legacy judge, with a gas parameter for the unbounded recursion
through composite products (the source has no depth bound, so cyclic
composition data would not terminate; the gas 0 sentinel marks fuel
exhaustion of the model and is unreachable for the acyclic data of the
theorems below).  Both the term and the sport code enter the body only
through their normalisations, exactly as in the source. -/
def judgeLGas : Nat → LTables → (String → LookupResult) → String → String →
    Option String → Option String → Option ℚ → Verdict
  | 0, _, _, _, _, _, _, _ => .final "fuel" "model fuel exhausted"
  | gas + 1, tbl, lk, term, sport, period, route, dose =>
    judgeLCore (fun inn => judgeLGas gas tbl lk inn sport period route dose) tbl lk
      (norm term)
      (String.mk ((upperS (trimS sport)).data.filter (fun c => c != ' ')))
      period route dose

end Legacy

/- ===================== concrete instances ===================== -/

/-- Empty reference index for judge.py. -/
def emptyPyTables : Py.Tables := ⟨[], [], [], [], [], [], [], [], [], [], [], []⟩

/-- Empty reference index for judge_legacy.py. -/
def emptyLTables : Legacy.LTables := ⟨[], [], [], [], [], [], [], [], [], [], []⟩

/-- External lookup stub of the legacy engine that never resolves. -/
def lkNone : String → Legacy.LookupResult := fun _ => .noneKind

/-- Cyclic composition data: product a lists b and product b lists a. -/
def tblCycle : Py.Tables := { emptyPyTables with
  cache_prod := [⟨"a", "b", ""⟩, ⟨"b", "a", ""⟩] }

/-- Composite with an S0-classified component u and a whitelisted g. -/
def tblC1ce : Py.Tables := { emptyPyTables with
  always_green := [⟨"g", "", "", "", "", none, none⟩],
  cache_sub := [⟨"u", "", "S0"⟩],
  cache_prod := [⟨"combo", "u;g", ""⟩] }

/-- Composite of a whitelisted a and a urine-caution b. -/
def tblC2ce : Py.Tables := { emptyPyTables with
  always_green := [⟨"a", "", "", "", "", none, none⟩],
  ask_period_and_urine_caution := [⟨"b", "", "S6", "", "", none, some 100⟩],
  cache_prod := [⟨"c", "a;b", ""⟩] }

/-- Route-and-dose record that carries a urine decision threshold. -/
def tblC3ce : Py.Tables := { emptyPyTables with
  ask_route_and_dose := [⟨"salbutamol", "", "S3", "inhaled", "", some 1600, some 1000⟩] }

/-- Allow-list with a single bare substance name. -/
def tblC5ce : Py.Tables := { emptyPyTables with
  always_green := [⟨"salbutamol", "", "", "", "", none, none⟩] }

/-- P1-classified substance with a sport rule of both. -/
def tblBoth : Py.Tables := { emptyPyTables with
  cache_sub := [⟨"atenolol", "", "P1"⟩],
  sports := [⟨"ARC", "both"⟩] }

/-- P1-classified substance with a sport rule of in. -/
def tblIn : Py.Tables := { emptyPyTables with
  cache_sub := [⟨"atenolol", "", "P1"⟩],
  sports := [⟨"ARC", "in"⟩] }

/-- P1-classified substance with no rule for the sport. -/
def tblNoRule : Py.Tables := { emptyPyTables with
  cache_sub := [⟨"atenolol", "", "P1"⟩] }

/-- Composite where x needs the period and y needs the route. -/
def tblC8 : Py.Tables := { emptyPyTables with
  ask_period := [⟨"x", "", "S6", "", "", none, none⟩],
  ask_route_and_dose := [⟨"y", "", "S3", "inhaled", "", none, none⟩],
  cache_prod := [⟨"combo", "x;y", ""⟩] }

/-- Legacy composite with an unknown component u and a whitelisted g. -/
def tblC1L : Legacy.LTables := { emptyLTables with
  green := [⟨"g"⟩],
  cache_prod := [⟨"combo", "u;g"⟩] }

/-- Legacy composite of a whitelisted a and a urine-caution b. -/
def tblC2L : Legacy.LTables := { emptyLTables with
  green := [⟨"a"⟩],
  period_urine := [⟨"b", 100⟩],
  cache_prod := [⟨"combo", "a;b"⟩] }

/-- Section rules carrying both a three and a five character prefix. -/
def tblC9L : Legacy.LTables := { emptyLTables with
  sections := [⟨"S1", "C07"⟩, ⟨"S6", "C07AB"⟩] }

/-- Legacy index holding only a single route-and-dose record. -/
def rdTable (row : Legacy.RDRow) : Legacy.LTables := { emptyLTables with
  route_dose := [row] }

/-- External service stub of judge.py that never resolves. -/
def extNone : Py.ExtService := ⟨fun _ => none, fun _ => [], fun _ => []⟩

/- ===================== theorems ===================== -/

/-- C6: with cyclic composition data (product a lists b, product b
lists a) the judge of judge.py terminates, and the cyclic branch
resolves to the recursion-limit red verdict once the depth passed to
the recursive call exceeds the fixed bound of 5 (the source literal is
"Recursion limit reached."), instead of looping: the top-level query
evaluates to exactly that verdict, and a direct call at depth 6 yields
it as well. -/
theorem C6_cycle_recursion_limit :
    Py.judge tblCycle none "a" "GEN" none none none 0 =
      Verdict.final "red" "Recursion limit reached." ∧
    Py.judge tblCycle none "a" "GEN" none none none 6 =
      Verdict.final "red" "Recursion limit reached." := by
  constructor <;> decide

/-- C7: a substance classified P1 in the cache is red regardless of
period, route and dose when the sport rule says both; under a rule of
in, or with no rule for the sport, it is red for period in, green for
period out, and a NeedMore requesting the period when unset. -/
theorem C7_p1_sport_override :
    (∀ (period route : Option String) (dose : Option ℚ),
      Py.judge tblBoth none "atenolol" "ARC" period route dose 0 =
        Verdict.final "red" "P1 prohibited in this sport (both).") ∧
    (Py.judge tblIn none "atenolol" "ARC" (some "in") none none 0 =
      Verdict.final "red" "P1 period rule.") ∧
    (Py.judge tblIn none "atenolol" "ARC" (some "out") none none 0 =
      Verdict.final "green" "P1 period rule.") ∧
    (Py.judge tblIn none "atenolol" "ARC" none none none 0 =
      Verdict.ask "yellow" "Period required for P1."
        [⟨"period", some ["in", "out"], "In-competition?"⟩]) ∧
    (Py.judge tblNoRule none "atenolol" "ARC" (some "in") none none 0 =
      Verdict.final "red" "P1 period rule.") ∧
    (Py.judge tblNoRule none "atenolol" "ARC" (some "out") none none 0 =
      Verdict.final "green" "P1 period rule.") ∧
    (Py.judge tblNoRule none "atenolol" "ARC" none none none 0 =
      Verdict.ask "yellow" "Period required for P1."
        [⟨"period", some ["in", "out"], "In-competition?"⟩]) :=
  ⟨fun _ _ _ => rfl, by decide, by decide, by decide, by decide, by decide, by decide⟩

/-- C4: the external classification fallback of judge.py fails closed.
The service oracle is total (every network call of the source sits in a
try/except converting any transport error, timeout or malformed
response to None or an empty list), so no exception can leave the
evaluator; when resolution fails (None or empty rxcui) the verdict is
the fail-closed red, and when the resolved concept yields no
classification labels at all the verdict is the fail-closed unmapped
red, for every table set and every recursion callback. -/
theorem C4_external_fail_closed (recurse : String → Verdict) (tbl : Py.Tables)
    (ext : Py.ExtService) (t sport : String) (period route : Option String)
    (dose : Option ℚ) :
    (ext.findRxcui t = none →
      Py.judge_by_external recurse tbl ext t sport period route dose =
        Verdict.final "red" "Not found in external data (S0). Possibly unapproved.") ∧
    (∀ rxcui, ext.findRxcui t = some rxcui → rxcui ≠ "" →
      ext.relatedIn rxcui = [] → ext.classLabels rxcui = [] →
      Py.judge_by_external recurse tbl ext t sport period route dose =
        Verdict.final "red" "Unknown/Unmapped class (S0).") := by
  constructor
  · intro h
    unfold Py.judge_by_external
    rw [h]
  · intro rxcui h hne hrel hlab
    unfold Py.judge_by_external
    rw [h]
    simp only [hne, if_false, hrel, hlab]
    simp [Py.labels_allowed]

/-- C4 witness: a concrete service stub returning not-found produces
the fail-closed red. -/
theorem C4_witness :
    Py.judge_by_external (fun _ => Verdict.final "" "") emptyPyTables extNone
      "term" "GEN" none none none =
      Verdict.final "red" "Not found in external data (S0). Possibly unapproved." :=
  (C4_external_fail_closed (fun _ => Verdict.final "" "") emptyPyTables extNone
    "term" "GEN" none none none).1 rfl

/-- C1 counterexample: in judge.py a composite whose component u
resolves to the S0 red while the other component g is green
short-circuits on the S0 red and returns that component verdict, not a
red listing the undetermined components. -/
theorem C1_counterexample :
    Py.judge tblC1ce none "combo" "GEN" none none none 0 =
      Verdict.final "red" "Unknown/Unapproved (S0) via cache." ∧
    Py.judge tblC1ce none "combo" "GEN" none none none 0 ≠
      Verdict.final "red" "undetermined component(s): u" := by
  constructor <;> decide

/-- C2 counterexample: in judge.py the component b of the composite c
resolves to a yellow final, yet the aggregate with no red and no
pending need is green, not yellow. -/
theorem C2_counterexample :
    Py.judge tblC2ce none "b" "GEN" (some "in") none none 0 =
      Verdict.final "yellow" "Urine threshold caution applies in-competition." ∧
    Py.judge tblC2ce none "c" "GEN" (some "in") none none 0 =
      Verdict.final "green"
        "a: Always allowed. / b: Urine threshold caution applies in-competition." ∧
    Py.judge tblC2ce none "c" "GEN" (some "in") none none 0 ≠
      Verdict.final "yellow"
        "a: Always allowed. / b: Urine threshold caution applies in-competition." := by
  refine ⟨by decide, by decide, by decide⟩

/-- C3 counterexample: in judge.py a matched route-and-dose record
carrying a urine decision threshold, with the route and dose checks
passing and the period unset, yields a final green and never the
period request the claim demands. -/
theorem C3_counterexample :
    Py.judge tblC3ce none "salbutamol" "GEN" none (some "inhaled") (some 800) 0 =
      Verdict.final "green" "Within permitted route/dose." ∧
    isAskV (Py.judge tblC3ce none "salbutamol" "GEN" none (some "inhaled") (some 800) 0) =
      false := by
  constructor <;> decide

/-- C5 counterexample: the `_norm` of judge.py only lower-cases and
trims, so a name keyed in a tier table no longer matches once a salt
suffix is appended: salbutamol is green by the allow list while
salbutamol sulfate falls through to the fail-closed red. -/
theorem C5_counterexample :
    Py.judge tblC5ce none "salbutamol" "GEN" none none none 0 =
      Verdict.final "green" "Always allowed." ∧
    Py.judge tblC5ce none "salbutamol sulfate" "GEN" none none none 0 =
      Verdict.final "red" "Not found (S0). Possibly unapproved." ∧
    Py.judge tblC5ce none "salbutamol sulfate" "GEN" none none none 0 ≠
      Py.judge tblC5ce none "salbutamol" "GEN" none none none 0 := by
  refine ⟨by decide, by decide, by decide⟩

/-- The legacy aggregation loop with only finals among the component
verdicts, at least one of them S0-like red and no hard red: the
deferred components accumulate and the loop closes with the red
message listing them. -/
theorem brandFold_defers_S0 (recurse : String → Verdict) (cs rs : String → String) :
    ∀ (inns : List String) (fc : String) (reasons unknown : List String),
    (∀ i ∈ inns, recurse i = Verdict.final (cs i) (rs i)) →
    (∀ i ∈ inns, cs i = "red" → Legacy.containsS0 (rs i) = true) →
    (unknown ≠ [] ∨ ∃ i ∈ inns, cs i = "red") →
    Legacy.brandFold recurse inns fc reasons [] unknown =
      Verdict.final "red" (Legacy.unknownMsg (unknown ++ inns.filter (fun i => cs i == "red"))) := by
  intro inns
  induction inns with
  | nil =>
    intro fc reasons unknown h1 h2 h3
    have hu : unknown ≠ [] := by
      rcases h3 with h | ⟨i, hi, _⟩
      · exact h
      · cases hi
    simp [Legacy.brandFold, List.isEmpty_iff, hu]
  | cons i rest ih =>
    intro fc reasons unknown h1 h2 h3
    have hrec := h1 i (List.mem_cons_self i rest)
    have h1' : ∀ j ∈ rest, recurse j = Verdict.final (cs j) (rs j) :=
      fun j hj => h1 j (List.mem_cons_of_mem i hj)
    have h2' : ∀ j ∈ rest, cs j = "red" → Legacy.containsS0 (rs j) = true :=
      fun j hj => h2 j (List.mem_cons_of_mem i hj)
    by_cases hred : cs i = "red"
    · have hS0 : Legacy.containsS0 (rs i) = true := h2 i (List.mem_cons_self i rest) hred
      rw [show (Legacy.brandFold recurse (i :: rest) fc reasons [] unknown) =
          (match recurse i with
           | .ask _ _ need =>
             Legacy.brandFold recurse rest "yellow"
               (reasons ++ [i ++ ": needs " ++ joinSep ", " (need.map Need.field)])
               ([] ++ need) unknown
           | .final c r =>
             if c == "red" && !Legacy.containsS0 r then .final c r
             else if c == "red" then
               Legacy.brandFold recurse rest "yellow" reasons [] (unknown ++ [i])
             else Legacy.brandFold recurse rest (if c == "yellow" then "yellow" else fc)
               (reasons ++ [i ++ ": " ++ r]) [] unknown) from rfl]
      rw [hrec]
      simp only [hred, hS0, Bool.not_true, Bool.and_false, beq_self_eq_true, Bool.true_and,
        Bool.false_eq_true, if_false, if_true, reduceIte]
      rw [ih "yellow" reasons (unknown ++ [i]) h1' h2' (Or.inl (by simp))]
      have : List.filter (fun j => cs j == "red") (i :: rest) =
          i :: List.filter (fun j => cs j == "red") rest := by
        simp [List.filter_cons, hred]
      rw [this]
      simp
    · have hne : (cs i == "red") = false := by
        simp [hred]
      rw [show (Legacy.brandFold recurse (i :: rest) fc reasons [] unknown) =
          (match recurse i with
           | .ask _ _ need =>
             Legacy.brandFold recurse rest "yellow"
               (reasons ++ [i ++ ": needs " ++ joinSep ", " (need.map Need.field)])
               ([] ++ need) unknown
           | .final c r =>
             if c == "red" && !Legacy.containsS0 r then .final c r
             else if c == "red" then
               Legacy.brandFold recurse rest "yellow" reasons [] (unknown ++ [i])
             else Legacy.brandFold recurse rest (if c == "yellow" then "yellow" else fc)
               (reasons ++ [i ++ ": " ++ r]) [] unknown) from rfl]
      rw [hrec]
      simp only [hne, Bool.false_and, Bool.false_eq_true, if_false, reduceIte]
      have h3' : unknown ≠ [] ∨ ∃ j ∈ rest, cs j = "red" := by
        rcases h3 with h | ⟨j, hj, hcj⟩
        · exact Or.inl h
        · rcases List.mem_cons.mp hj with rfl | hj'
          · exact absurd hcj hred
          · exact Or.inr ⟨j, hj', hcj⟩
      rw [ih (if cs i == "yellow" then "yellow" else fc)
        (reasons ++ [i ++ ": " ++ rs i]) unknown h1' h2' h3']
      have : List.filter (fun j => cs j == "red") (i :: rest) =
          List.filter (fun j => cs j == "red") rest := by
        simp [List.filter_cons, hne]
      rw [this]

/-- C1: the deferral of unresolved components happens in the legacy
engine: when every component verdict is a final, every red among them
is S0-like, and at least one is red, the legacy aggregation continues
past the S0-like reds and returns the red verdict whose message lists
exactly the deferred component names; concretely, the composite of the
unknown u and the whitelisted g yields the red listing u.  judge.py
short-circuits instead (see the counterexample). -/
theorem C1_legacy_defers_unknown :
    (∀ (recurse : String → Verdict) (cs rs : String → String) (inns : List String),
      (∀ i ∈ inns, recurse i = Verdict.final (cs i) (rs i)) →
      (∀ i ∈ inns, cs i = "red" → Legacy.containsS0 (rs i) = true) →
      (∃ i ∈ inns, cs i = "red") →
      Legacy.brandFold recurse inns "green" [] [] [] =
        Verdict.final "red" (Legacy.unknownMsg (inns.filter (fun i => cs i == "red")))) ∧
    Legacy.judgeLGas 2 tblC1L lkNone "combo" "GEN" none none none =
      Verdict.final "red"
        "この製品にはデータ未収載の成分があります：u。成分の確認が済むまで使用を控えてください。" := by
  constructor
  · intro recurse cs rs inns h1 h2 h3
    have h := brandFold_defers_S0 recurse cs rs inns "green" [] [] h1 h2 (Or.inr h3)
    simpa using h
  · decide

/-- Component verdicts used by the C1 witness. -/
def recC1w : String → Verdict := fun i =>
  if i = "u" then Verdict.final "red" "Not found in RxNorm (S0). Possibly unapproved."
  else Verdict.final "green" "Allowed by whitelist"

/-- Component colors used by the C1 witness. -/
def csC1w : String → String := fun i => if i = "u" then "red" else "green"

/-- Component reasons used by the C1 witness. -/
def rsC1w : String → String := fun i =>
  if i = "u" then "Not found in RxNorm (S0). Possibly unapproved." else "Allowed by whitelist"

/-- C1 witness: the general deferral statement applied to the concrete
two-component composite. -/
theorem C1_witness :
    Legacy.brandFold recC1w ["u", "g"] "green" [] [] [] =
      Verdict.final "red"
        (Legacy.unknownMsg (["u", "g"].filter (fun i => csC1w i == "red"))) :=
  C1_legacy_defers_unknown.1 recC1w csC1w rsC1w ["u", "g"]
    (by decide) (by decide) ⟨"u", by decide, by decide⟩

/-- The legacy aggregation loop with only green or yellow finals among
the component verdicts: the loop appends the labelled reasons and the
final color is yellow exactly when the running color already is or
some component is yellow. -/
theorem brandFold_green_yellow (recurse : String → Verdict) (cs rs : String → String) :
    ∀ (inns : List String) (fc : String) (reasons : List String),
    (∀ i ∈ inns, recurse i = Verdict.final (cs i) (rs i)) →
    (∀ i ∈ inns, cs i = "green" ∨ cs i = "yellow") →
    (fc = "green" ∨ fc = "yellow") →
    Legacy.brandFold recurse inns fc reasons [] [] =
      Verdict.final
        (if fc == "yellow" || inns.any (fun i => cs i == "yellow") then "yellow" else "green")
        (if !(reasons ++ inns.map (fun i => i ++ ": " ++ rs i)).isEmpty
         then joinSep " / " (reasons ++ inns.map (fun i => i ++ ": " ++ rs i))
         else "All components allowed") := by
  intro inns
  induction inns with
  | nil =>
    intro fc reasons h1 hcol hfc
    rcases hfc with rfl | rfl <;> simp [Legacy.brandFold]
  | cons i rest ih =>
    intro fc reasons h1 hcol hfc
    have hrec := h1 i (List.mem_cons_self i rest)
    have h1' : ∀ j ∈ rest, recurse j = Verdict.final (cs j) (rs j) :=
      fun j hj => h1 j (List.mem_cons_of_mem i hj)
    have hcol' : ∀ j ∈ rest, cs j = "green" ∨ cs j = "yellow" :=
      fun j hj => hcol j (List.mem_cons_of_mem i hj)
    have hi := hcol i (List.mem_cons_self i rest)
    have hne : (cs i == "red") = false := by
      rcases hi with h | h <;> simp [h]
    rw [show (Legacy.brandFold recurse (i :: rest) fc reasons [] []) =
        (match recurse i with
         | .ask _ _ need =>
           Legacy.brandFold recurse rest "yellow"
             (reasons ++ [i ++ ": needs " ++ joinSep ", " (need.map Need.field)])
             ([] ++ need) []
         | .final c r =>
           if c == "red" && !Legacy.containsS0 r then .final c r
           else if c == "red" then
             Legacy.brandFold recurse rest "yellow" reasons [] ([] ++ [i])
           else Legacy.brandFold recurse rest (if c == "yellow" then "yellow" else fc)
             (reasons ++ [i ++ ": " ++ r]) [] []) from rfl]
    rw [hrec]
    simp only [hne, Bool.false_and, Bool.false_eq_true, if_false, reduceIte]
    have hfc' : (if cs i == "yellow" then "yellow" else fc) = "green" ∨
        (if cs i == "yellow" then "yellow" else fc) = "yellow" := by
      split
      · exact Or.inr rfl
      · exact hfc
    rw [ih (if cs i == "yellow" then "yellow" else fc)
      (reasons ++ [i ++ ": " ++ rs i]) h1' hcol' hfc']
    rcases hi with h | h
    · simp [h, List.any_cons]
    · simp [h, List.any_cons]

/-- C2: the yellow-propagating aggregation happens in the legacy
engine: for a composite whose component verdicts are all green or
yellow finals, the legacy aggregate is a final whose color is yellow
if any component was yellow and green otherwise, with the labelled
per-component reasons joined by " / "; concretely, the composite of a
green and a yellow component aggregates to yellow.  judge.py returns
green there (see the counterexample). -/
theorem C2_legacy_aggregate_color :
    (∀ (recurse : String → Verdict) (cs rs : String → String) (inns : List String),
      (∀ i ∈ inns, recurse i = Verdict.final (cs i) (rs i)) →
      (∀ i ∈ inns, cs i = "green" ∨ cs i = "yellow") →
      Legacy.brandFold recurse inns "green" [] [] [] =
        Verdict.final
          (if inns.any (fun i => cs i == "yellow") then "yellow" else "green")
          (if !(inns.map (fun i => i ++ ": " ++ rs i)).isEmpty
           then joinSep " / " (inns.map (fun i => i ++ ": " ++ rs i))
           else "All components allowed")) ∧
    Legacy.judgeLGas 2 tblC2L lkNone "combo" "GEN" (some "in") none none =
      Verdict.final "yellow"
        "a: Allowed by whitelist / b: In-competition urine > 100 ng/mL ⇒ AAF" := by
  constructor
  · intro recurse cs rs inns h1 hcol
    have h := brandFold_green_yellow recurse cs rs inns "green" [] h1 hcol (Or.inl rfl)
    simpa using h
  · decide

/-- Component verdicts used by the C2 witness. -/
def recC2w : String → Verdict := fun i =>
  if i = "b" then Verdict.final "yellow" "caution" else Verdict.final "green" "fine"

/-- Component colors used by the C2 witness. -/
def csC2w : String → String := fun i => if i = "b" then "yellow" else "green"

/-- Component reasons used by the C2 witness. -/
def rsC2w : String → String := fun i => if i = "b" then "caution" else "fine"

/-- C2 witness: the general aggregation statement applied to a
concrete green plus yellow composite. -/
theorem C2_witness :
    Legacy.brandFold recC2w ["a", "b"] "green" [] [] [] =
      Verdict.final
        (if (["a", "b"].any (fun i => csC2w i == "yellow")) then "yellow" else "green")
        (if !((["a", "b"].map (fun i => i ++ ": " ++ rsC2w i)).isEmpty)
         then joinSep " / " (["a", "b"].map (fun i => i ++ ": " ++ rsC2w i))
         else "All components allowed") :=
  C2_legacy_aggregate_color.1 recC2w csC2w rsC2w ["a", "b"] (by decide) (by decide)

/-- C3: the urine-threshold logic of the Route+Dose tier lives in the
legacy engine.  For a matched record with permitted route pr, dose
limit m and a urine decision threshold, a query with route pr and a
24h dose within the limit requires the period (a NeedMore requesting
it when unset), yields the yellow threshold caution for period in and
green for period out; with no threshold on the record the query is
green for every period.  judge.py ignores the threshold column (see
the counterexample). -/
theorem C3_legacy_route_dose_threshold (pr du : String) (m th d : ℚ)
    (lk : String → Legacy.LookupResult) (period0 : Option String)
    (hpr : pr ≠ "") (hd : d ≤ m) :
    (Legacy.judgeLGas 1 (rdTable ⟨"s", pr, m, du, some th⟩) lk "s" "GEN"
        none (some pr) (some d) =
      Verdict.ask "yellow" "Urine threshold warning applies in-competition"
        [⟨"period", some ["in", "out"], "In-competition?"⟩]) ∧
    (Legacy.judgeLGas 1 (rdTable ⟨"s", pr, m, du, some th⟩) lk "s" "GEN"
        (some "in") (some pr) (some d) =
      Verdict.final "yellow"
        ("In-competition urine > " ++ toString (pyInt th) ++ " ng/mL ⇒ AAF unless PK study")) ∧
    (Legacy.judgeLGas 1 (rdTable ⟨"s", pr, m, du, some th⟩) lk "s" "GEN"
        (some "out") (some pr) (some d) =
      Verdict.final "green" "Within inhaled dose limit") ∧
    (Legacy.judgeLGas 1 (rdTable ⟨"s", pr, m, du, none⟩) lk "s" "GEN"
        period0 (some pr) (some d) =
      Verdict.final "green" "Within inhaled dose limit") := by
  have hn : Legacy.norm "s" = "s" := by decide
  have hprb : (pr == "") = false := by simp [hpr]
  have hdm : ¬ (d > m) := not_lt.mpr hd
  refine ⟨?_, ?_, ?_, ?_⟩ <;>
    simp [Legacy.judgeLGas, Legacy.judgeLCore, hn, rdTable, emptyLTables,
      List.find?, hprb, hdm]

/-- C3 witness: the threshold statement at a concrete record and dose. -/
theorem C3_witness :
    Legacy.judgeLGas 1 (rdTable ⟨"s", "inhaled", 1600, "mcg", some 1000⟩) lkNone "s" "GEN"
        (some "in") (some "inhaled") (some 800) =
      Verdict.final "yellow"
        ("In-competition urine > " ++ toString (pyInt 1000) ++ " ng/mL ⇒ AAF unless PK study") :=
  (C3_legacy_route_dose_threshold "inhaled" "mcg" 1600 1000 800 lkNone none
    (by decide) (by norm_num)).2.1

/-- Reference deduplication: keep each need and drop every later need
carrying the same field name.  This transparently keeps the first
occurrence in first-encountered order. -/
def dedupFirst : List Need → List Need
  | [] => []
  | n :: rest => n :: dedupFirst (rest.filter (fun m => m.field ≠ n.field))
termination_by l => l.length
decreasing_by
  simpa using Nat.lt_succ_of_le (List.length_filter_le _ rest)

/-- The seen-set loop of the source equals the reference
deduplication on the part of the list whose fields are unseen. -/
theorem dedupNeeds_eq_dedupFirst_filter :
    ∀ (l : List Need) (seen : List String),
    dedupNeeds seen l = dedupFirst (l.filter (fun n => !seen.contains n.field)) := by
  intro l
  induction l with
  | nil => intro seen; simp [dedupNeeds, dedupFirst]
  | cons n rest ih =>
    intro seen
    by_cases hs : seen.contains n.field
    · simp only [dedupNeeds, hs, if_true, List.filter_cons, Bool.not_true,
        Bool.false_eq_true, reduceIte]
      exact ih seen
    · have hs' : seen.contains n.field = false := by
        cases h : seen.contains n.field
        · rfl
        · exact absurd h hs
      simp only [dedupNeeds, hs', Bool.false_eq_true, if_false, List.filter_cons,
        Bool.not_false, reduceIte]
      rw [dedupFirst, ih (n.field :: seen)]
      congr 1
      rw [List.filter_filter]
      congr 1
      apply List.filter_congr
      intro m _
      simp [List.contains_cons, eq_comm]

/-- Every element of the reference deduplication comes from the input
list, in order. -/
theorem dedupFirst_sublist : ∀ l : List Need, (dedupFirst l).Sublist l := by
  intro l
  induction l using dedupFirst.induct with
  | case1 => simp [dedupFirst]
  | case2 n rest ih =>
    rw [dedupFirst]
    exact (ih.trans (List.filter_sublist rest)).cons₂ n

/-- The reference deduplication never repeats a field name. -/
theorem dedupFirst_nodup : ∀ l : List Need, ((dedupFirst l).map Need.field).Nodup := by
  intro l
  induction l using dedupFirst.induct with
  | case1 => simp [dedupFirst]
  | case2 n rest ih =>
    rw [dedupFirst]
    refine List.nodup_cons.mpr ⟨?_, ih⟩
    intro hmem
    rcases List.mem_map.mp hmem with ⟨m, hm, hf⟩
    have hm' : m ∈ rest.filter (fun m => m.field ≠ n.field) :=
      (dedupFirst_sublist _).subset hm
    have := List.of_mem_filter hm'
    simp [hf] at this

/-- C8: the need lists a composite aggregation of judge.py returns are
deduplicated by field name keeping the first occurrence in order: the
source loop equals the reference first-occurrence deduplication, whose
output never repeats a field name and is an in-order sublist of the
merged needs; concretely, a composite whose component x needs the
period and whose component y needs the route returns one NeedMore
carrying both fields exactly once each, in encounter order. -/
theorem C8_needs_dedup :
    (∀ l : List Need, dedupNeeds [] l = dedupFirst l) ∧
    (∀ l : List Need, ((dedupFirst l).map Need.field).Nodup ∧ (dedupFirst l).Sublist l) ∧
    Py.judge tblC8 none "combo" "GEN" none none none 0 =
      Verdict.ask "yellow" "x: needs period / y: needs route"
        [⟨"period", some ["in", "out"], "In-competition?"⟩,
         ⟨"route", some ["inhaled"], "Select route"⟩] := by
  refine ⟨fun l => ?_, fun l => ⟨dedupFirst_nodup l, dedupFirst_sublist l⟩, by decide⟩
  rw [dedupNeeds_eq_dedupFirst_filter l []]
  simp

/-- String pairs ordered by descending length of the second. -/
theorem insertByLen_mem (x : String) :
    ∀ (l : List String) (z : String), z ∈ Legacy.insertByLen x l ↔ z = x ∨ z ∈ l := by
  intro l
  induction l with
  | nil => intro z; simp [Legacy.insertByLen]
  | cons y ys ih =>
    intro z
    rw [Legacy.insertByLen]
    split
    · simp [List.mem_cons]
    · simp only [List.mem_cons, ih z]
      tauto

/-- Insertion keeps the list ordered by descending character length. -/
theorem insertByLen_pairwise (x : String) :
    ∀ (l : List String),
    l.Pairwise (fun a b => b.data.length ≤ a.data.length) →
    (Legacy.insertByLen x l).Pairwise (fun a b => b.data.length ≤ a.data.length) := by
  intro l
  induction l with
  | nil => intro _; simp [Legacy.insertByLen]
  | cons y ys ih =>
    intro h
    rcases List.pairwise_cons.mp h with ⟨hy, hys⟩
    rw [Legacy.insertByLen]
    split
    · rename_i hle
      refine List.pairwise_cons.mpr ⟨?_, h⟩
      intro z hz
      rcases List.mem_cons.mp hz with rfl | hz'
      · exact hle
      · exact le_trans (hy z hz') hle
    · rename_i hgt
      refine List.pairwise_cons.mpr ⟨?_, ih hys⟩
      intro z hz
      rcases (insertByLen_mem x ys z).mp hz with rfl | hz'
      · omega
      · exact hy z hz'

/-- The stable sort of the prefix keys is ordered by descending
length. -/
theorem sortByLenDesc_pairwise (l : List String) :
    (Legacy.sortByLenDesc l).Pairwise (fun a b => b.data.length ≤ a.data.length) := by
  induction l with
  | nil => simp [Legacy.sortByLenDesc]
  | cons x xs ih =>
    rw [Legacy.sortByLenDesc, List.foldr_cons]
    exact insertByLen_pairwise x _ ih

/-- In a length-descending key list the first textual prefix match is
a longest match: any other matching key is no longer. -/
theorem find_first_is_longest :
    ∀ (keys : List String) (code p : String),
    keys.Pairwise (fun a b => b.data.length ≤ a.data.length) →
    keys.find? (fun k => startsWithS code k) = some p →
    ∀ q ∈ keys, startsWithS code q = true → q.data.length ≤ p.data.length := by
  intro keys
  induction keys with
  | nil => intro code p _ h; simp [List.find?] at h
  | cons k ks ih =>
    intro code p hpw h q hq hsq
    rcases List.pairwise_cons.mp hpw with ⟨hk, hks⟩
    rw [List.find?_cons] at h
    cases hmk : startsWithS code k with
    | true =>
      rw [hmk] at h
      have hpk : p = k := by
        simpa using h.symm
      subst hpk
      rcases List.mem_cons.mp hq with rfl | hq'
      · exact le_refl _
      · exact hk q hq'
    | false =>
      rw [hmk] at h
      rcases List.mem_cons.mp hq with rfl | hq'
      · rw [hsq] at hmk
        cases hmk
      · exact ih code p hks h q hq' hsq

/-- C9: longest-prefix matching.  The candidate prefixes of the
Section Rule index are sorted by descending length, the first textual
prefix match is selected, and that match is always a longest one;
concretely, with the prefixes C07 and C07AB both present, the key list
is ["C07AB", "C07"], the code C07AB02 matches C07AB, and the section
fallback resolves it to the section mapped by C07AB, not the one
mapped by C07. -/
theorem C9_longest_prefix :
    (∀ (rows : List Legacy.SecRow) (code p : String),
      (Legacy.sectionKeys rows).find? (fun k => startsWithS code k) = some p →
      ∀ q ∈ Legacy.sectionKeys rows, startsWithS code q = true →
        q.data.length ≤ p.data.length) ∧
    Legacy.sectionKeys tblC9L.sections = ["C07AB", "C07"] ∧
    (Legacy.sectionKeys tblC9L.sections).find? (fun k => startsWithS "C07AB02" k) =
      some "C07AB" ∧
    Legacy.section_fallback tblC9L "C07AB02" (some "out") none =
      Verdict.final "green" "S6 period rule (ATC C07AB)" := by
  refine ⟨?_, by decide, by decide, by decide⟩
  intro rows code p h
  exact find_first_is_longest (Legacy.sectionKeys rows) code p
    (sortByLenDesc_pairwise _) h

/-- C9 witness: the longest-match statement at the concrete index and
code. -/
theorem C9_witness : ("C07" : String).data.length ≤ ("C07AB" : String).data.length :=
  C9_longest_prefix.1 tblC9L.sections "C07AB02" "C07AB" (by decide) "C07"
    (by decide) (by decide)

/-- True unless the verdict is an ask whose provisional color is not
yellow. -/
def askYellowB : Verdict → Bool
  | .ask pc _ _ => pc == "yellow"
  | .final _ _ => true

/-- askYellowB lifted to the optional verdict of a tier evaluator. -/
def askYellowO : Option Verdict → Bool
  | none => true
  | some v => askYellowB v

/-- Every ask the six-CSV tier evaluator constructs carries the
provisional color yellow. -/
theorem sixcsv_ask_yellow (tbl : Py.Tables) (t sport : String)
    (period route : Option String) (dose : Option ℚ) :
    askYellowO (Py.judge_by_6csv tbl t sport period route dose) = true := by
  simp only [Py.judge_by_6csv]
  repeat' split
  all_goals rfl

/-- Every ask the shared P1 branch constructs carries the provisional
color yellow. -/
theorem p1_ask_yellow (tbl : Py.Tables) (sport : String) (period : Option String) :
    askYellowB (Py.p1Branch tbl sport period) = true := by
  simp only [Py.p1Branch]
  repeat' split
  all_goals rfl

/-- Every ask the shared S6/S7/S8 branch constructs carries the
provisional color yellow. -/
theorem s68_ask_yellow (sec : String) (period : Option String) :
    askYellowB (Py.s68Branch sec period) = true := by
  simp only [Py.s68Branch]
  repeat' split
  all_goals rfl

/-- Every ask the shared S9 branch constructs carries the provisional
color yellow. -/
theorem s9_ask_yellow (tbl : Py.Tables) (period route : Option String) :
    askYellowB (Py.s9Branch tbl period route) = true := by
  simp only [Py.s9Branch]
  repeat' split
  all_goals rfl

/-- Every ask the cache tier evaluator constructs carries the
provisional color yellow. -/
theorem cache_ask_yellow (tbl : Py.Tables) (t sport : String)
    (period route : Option String) (dose : Option ℚ) :
    askYellowO (Py.judge_by_cache tbl t sport period route dose) = true := by
  simp only [Py.judge_by_cache]
  repeat' split
  all_goals first
    | rfl
    | exact p1_ask_yellow tbl sport period
    | exact s68_ask_yellow _ period
    | exact s9_ask_yellow tbl period route

/-- Every ask the aggregation loop of judge.py constructs carries the
provisional color yellow, for every recursion callback. -/
theorem brandLoop_ask_yellow (recurse : String → Verdict) :
    ∀ (inns reasons : List String) (asks : List Need),
    askYellowB (Py.brandLoop recurse inns reasons asks) = true := by
  intro inns
  induction inns with
  | nil =>
    intro reasons asks
    rw [Py.brandLoop]
    split <;> rfl
  | cons i rest ih =>
    intro reasons asks
    rw [Py.brandLoop]
    cases hrec : recurse i with
    | ask pc0 r0 n0 => exact ih _ _
    | final c0 r0 =>
      show askYellowB (if (c0 == "red") = true then Verdict.final c0 r0
        else Py.brandLoop recurse rest (reasons ++ [i ++ ": " ++ r0]) asks) = true
      split
      · rfl
      · exact ih _ _

/-- Every ask the brand tier returns carries the provisional color
yellow. -/
theorem brand_ask_yellow (recurse : String → Verdict) (tbl : Py.Tables)
    (t : String) :
    askYellowO (Py.judge_by_brand_cache recurse tbl t) = true := by
  simp only [Py.judge_by_brand_cache]
  split
  · rfl
  · split
    · rfl
    · exact brandLoop_ask_yellow recurse _ _ _

/-- Every ask the section dispatch constructs carries the provisional
color yellow. -/
theorem cachelike_ask_yellow (tbl : Py.Tables) (sec : String)
    (period route : Option String) (sport : String) :
    askYellowB (Py.judge_by_cachelike_section tbl sec period route sport) = true := by
  simp only [Py.judge_by_cachelike_section]
  repeat' split
  all_goals first
    | rfl
    | exact p1_ask_yellow tbl sport period
    | exact s68_ask_yellow _ period
    | exact s9_ask_yellow tbl period route

/-- Every ask the external fallback returns carries the provisional
color yellow. -/
theorem external_ask_yellow (recurse : String → Verdict) (tbl : Py.Tables)
    (ext : Py.ExtService) (t sport : String) (period route : Option String)
    (dose : Option ℚ) :
    askYellowB (Py.judge_by_external recurse tbl ext t sport period route dose) = true := by
  simp only [Py.judge_by_external]
  split
  · rfl
  · split
    · rfl
    · split
      · exact brandLoop_ask_yellow recurse _ _ _
      · split
        · exact cachelike_ask_yellow tbl _ period route sport
        · split <;> rfl

/-- Every ask the gas-indexed cascade returns carries the provisional
color yellow. -/
theorem judgeGas_ask_yellow (gas : Nat) (tbl : Py.Tables) (ext : Option Py.ExtService)
    (term sport : String) (period route : Option String) (dose : Option ℚ)
    (depth : Nat) :
    askYellowB (Py.judgeGas gas tbl ext term sport period route dose depth) = true := by
  cases gas with
  | zero => rfl
  | succ gas =>
    simp only [Py.judgeGas]
    split
    · rfl
    · split
      · rename_i res heq
        have h6 := sixcsv_ask_yellow tbl (normPy term) sport (Py.ensurePeriod period)
          (Py.canonicalRoute route) dose
        rw [heq] at h6
        simpa [askYellowO] using h6
      · split
        · rename_i res heq
          have hc := cache_ask_yellow tbl (normPy term) sport (Py.ensurePeriod period)
            (Py.canonicalRoute route) dose
          rw [heq] at hc
          simpa [askYellowO] using hc
        · split
          · rename_i res heq
            have hb := brand_ask_yellow
              (fun inn => Py.judgeGas gas tbl ext inn sport (Py.ensurePeriod period)
                (Py.canonicalRoute route) dose (depth + 1)) tbl (normPy term)
            rw [heq] at hb
            simpa [askYellowO] using hb
          · split
            · exact external_ask_yellow _ tbl _ (normPy term) sport
                (Py.ensurePeriod period) (Py.canonicalRoute route) dose
            · rfl

/-- C10: every NeedMore the engine of judge.py returns, from any tier,
the cached-section dispatch or the composite aggregation, carries the
provisional color yellow, for every reference index, external service,
query and depth. -/
theorem C10_provisional_always_yellow (tbl : Py.Tables) (ext : Option Py.ExtService)
    (term sport : String) (period route : Option String) (dose : Option ℚ)
    (depth : Nat) (pc r : String) (n : List Need) :
    Py.judge tbl ext term sport period route dose depth = .ask pc r n → pc = "yellow" := by
  intro h
  have hy := judgeGas_ask_yellow (7 - depth) tbl ext term sport period route dose depth
  rw [Py.judge] at h
  rw [h] at hy
  simpa [askYellowB] using hy

/-- C10 witness: the invariant applied to a concrete ask of the
period tier. -/
theorem C10_witness : ("yellow" : String) = "yellow" :=
  C10_provisional_always_yellow tblC8 none "x" "GEN" none none none 0
    "yellow" "Period required." [⟨"period", some ["in", "out"], "In-competition?"⟩]
    (by decide)

/-- Whitespace characters are never word characters. -/
theorem ws_not_word (c : Char) (h : c.isWhitespace = true) : isWordChar c = false := by
  have h4 : ((c = ' ' ∨ c = '\t') ∨ c = '\x0d') ∨ c = '\n' := by
    simpa [Char.isWhitespace] using h
  rcases h4 with ((rfl | rfl) | rfl) | rfl <;> decide

/-- Word characters are never whitespace. -/
theorem word_not_ws (c : Char) (h : isWordChar c = true) : c.isWhitespace = false := by
  cases hw : c.isWhitespace
  · rfl
  · rw [ws_not_word c hw] at h
    cases h

/-- The empty run is not a salt word. -/
theorem saltFilter_nil : Legacy.saltFilter [] = [] := by decide

/-- The salt-erasing pass distributes over an append whose right part
starts with a non-word character (or is empty): the word boundary at
the seam keeps the runs of the two parts independent. -/
theorem stripSaltsGo_append (y : List Char)
    (hy : y = [] ∨ ∃ d ds, y = d :: ds ∧ isWordChar d = false) :
    ∀ (x acc : List Char),
    Legacy.stripSaltsGo acc (x ++ y) =
      Legacy.stripSaltsGo acc x ++ Legacy.stripSaltsGo [] y := by
  intro x
  induction x with
  | nil =>
    intro acc
    rcases hy with rfl | ⟨d, ds, rfl, hd⟩
    · simp [Legacy.stripSaltsGo, saltFilter_nil]
    · simp [Legacy.stripSaltsGo, hd, saltFilter_nil]
  | cons c cs ih =>
    intro acc
    by_cases hc : isWordChar c = true
    · simp only [List.cons_append, Legacy.stripSaltsGo, hc, if_true, reduceIte]
      exact ih (acc ++ [c])
    · have hc' : isWordChar c = false := by
        cases h : isWordChar c
        · rfl
        · exact absurd h hc
      simp only [List.cons_append, Legacy.stripSaltsGo, hc', Bool.false_eq_true, if_false,
        reduceIte, List.append_eq]
      rw [ih []]
      simp

/-- On an all-word run the salt-erasing pass is the salt filter of the
accumulated run. -/
theorem stripSaltsGo_allWord : ∀ (w acc : List Char), w.all isWordChar = true →
    Legacy.stripSaltsGo acc w = Legacy.saltFilter (acc ++ w) := by
  intro w
  induction w with
  | nil => intro acc _; simp [Legacy.stripSaltsGo]
  | cons c cs ih =>
    intro acc h
    rw [List.all_cons, Bool.and_eq_true] at h
    simp only [Legacy.stripSaltsGo, h.1, if_true, reduceIte]
    rw [ih (acc ++ [c]) h.2]
    simp

/-- On a list without word characters the salt-erasing pass is the
identity. -/
theorem stripSaltsGo_allNonWord : ∀ l : List Char, (∀ c ∈ l, isWordChar c = false) →
    Legacy.stripSaltsGo [] l = l := by
  intro l
  induction l with
  | nil => intro _; simp [Legacy.stripSaltsGo, saltFilter_nil]
  | cons c cs ih =>
    intro h
    have hc := h c (List.mem_cons_self c cs)
    simp only [Legacy.stripSaltsGo, hc, Bool.false_eq_true, if_false, reduceIte, saltFilter_nil]
    rw [ih (fun d hd => h d (List.mem_cons_of_mem c hd))]
    simp

/-- A trailing all-whitespace block is erased by the right trim. -/
theorem trimRightD_append_allWs (a t : List Char) (ht : ∀ c ∈ t, c.isWhitespace = true) :
    trimRightD (a ++ t) = trimRightD a := by
  unfold trimRightD
  rw [List.reverse_append, List.dropWhile_append]
  have hnil : t.reverse.dropWhile Char.isWhitespace = [] :=
    List.dropWhile_eq_nil_iff.mpr (fun x hx => ht x (List.mem_reverse.mp hx))
  simp [hnil]

/-- The right trim keeps a list ending in a non-whitespace character. -/
theorem trimRightD_snoc (l : List Char) (c : Char) (hc : c.isWhitespace = false) :
    trimRightD (l ++ [c]) = l ++ [c] := by
  unfold trimRightD
  rw [List.reverse_append]
  simp [List.dropWhile_cons, hc]

/-- A trailing all-whitespace block is erased by the strip. -/
theorem stripD_append_allWs (a t : List Char) (ht : ∀ c ∈ t, c.isWhitespace = true) :
    stripD (a ++ t) = stripD a := by
  unfold stripD trimLeftD
  rw [List.dropWhile_append]
  by_cases h : (a.dropWhile Char.isWhitespace).isEmpty
  · have ha : a.dropWhile Char.isWhitespace = [] := List.isEmpty_iff.mp h
    have htnil : t.dropWhile Char.isWhitespace = [] :=
      List.dropWhile_eq_nil_iff.mpr (fun x hx => ht x hx)
    simp [h, ha, htnil]
  · simp only [h, Bool.false_eq_true, if_false, reduceIte]
    exact trimRightD_append_allWs _ _ ht

/-- Every list splits into its right trim and an all-whitespace tail. -/
theorem trimRightD_decomp (l : List Char) :
    l = trimRightD l ++ (l.reverse.takeWhile Char.isWhitespace).reverse := by
  conv_lhs => rw [← List.reverse_reverse l,
    ← List.takeWhile_append_dropWhile Char.isWhitespace l.reverse]
  rw [List.reverse_append]
  rfl

/-- The tail split off by the right trim is all whitespace. -/
theorem takeWhile_rev_allWs (l : List Char) :
    ∀ c ∈ (l.reverse.takeWhile Char.isWhitespace).reverse, c.isWhitespace = true :=
  fun c hc => List.mem_takeWhile_imp (List.mem_reverse.mp hc)

/-- Dropping leading whitespace from an all-word list changes
nothing. -/
theorem dropWhile_ws_allWord (w : List Char) (hw : w.all isWordChar = true) :
    w.dropWhile Char.isWhitespace = w := by
  cases w with
  | nil => rfl
  | cons c cs =>
    rw [List.all_cons, Bool.and_eq_true] at hw
    rw [List.dropWhile_cons, word_not_ws c hw.1]
    simp

/-- Appending a space and an all-word salt run to any term leaves its
normalisation unchanged: the lowering, both strips, the salt erasure
and the final collapse all commute with the appended block. -/
theorem normChars_append_wordSalt (s w0 : List Char) (c : Char)
    (hword : (w0 ++ [c]).all isWordChar = true)
    (hsalt : Legacy.stripSaltsGo [] (w0 ++ [c]) = [])
    (hlow : (w0 ++ [c]).map Char.toLower = w0 ++ [c]) :
    Legacy.normChars (s ++ (' ' :: (w0 ++ [c]))) = Legacy.normChars s := by
  have hcw : isWordChar c = true := List.all_eq_true.mp hword c (by simp)
  have hcws : c.isWhitespace = false := word_not_ws c hcw
  unfold Legacy.normChars
  have hmap : (s ++ (' ' :: (w0 ++ [c]))).map Char.toLower =
      s.map Char.toLower ++ (' ' :: (w0 ++ [c])) := by
    rw [List.map_append, List.map_cons, hlow]
    rfl
  rw [hmap]
  set u := s.map Char.toLower with hudef
  by_cases hA : (u.dropWhile Char.isWhitespace).isEmpty
  · have ha : u.dropWhile Char.isWhitespace = [] := List.isEmpty_iff.mp hA
    have h1 : stripD (u ++ (' ' :: (w0 ++ [c]))) = w0 ++ [c] := by
      unfold stripD trimLeftD
      rw [List.dropWhile_append, ha]
      simp only [List.isEmpty_nil, if_true, reduceIte, List.dropWhile_cons]
      have hsp : (' ' : Char).isWhitespace = true := by decide
      rw [hsp]
      simp only [if_true, reduceIte]
      rw [dropWhile_ws_allWord _ hword]
      exact trimRightD_snoc w0 c hcws
    have h2 : stripD u = [] := by
      unfold stripD trimLeftD
      rw [ha]
      rfl
    rw [h1, hsalt, h2]
    simp [Legacy.stripSaltsGo, saltFilter_nil]
  · set v := u.dropWhile Char.isWhitespace with hvdef
    have h1 : stripD (u ++ (' ' :: (w0 ++ [c]))) = v ++ (' ' :: (w0 ++ [c])) := by
      unfold stripD trimLeftD
      rw [List.dropWhile_append]
      simp only [hA, Bool.false_eq_true, if_false, reduceIte]
      rw [← hvdef]
      have hform : v ++ (' ' :: (w0 ++ [c])) = (v ++ (' ' :: w0)) ++ [c] := by simp
      rw [hform, trimRightD_snoc _ c hcws, ← hform]
    rw [h1]
    have h2 : Legacy.stripSaltsGo [] (v ++ (' ' :: (w0 ++ [c]))) =
        Legacy.stripSaltsGo [] v ++ [' '] := by
      rw [stripSaltsGo_append (' ' :: (w0 ++ [c]))
        (Or.inr ⟨' ', w0 ++ [c], rfl, by decide⟩) v []]
      congr 1
      have hsp : isWordChar ' ' = false := by decide
      simp only [Legacy.stripSaltsGo, hsp, Bool.false_eq_true, if_false, reduceIte,
        saltFilter_nil]
      rw [hsalt]
      rfl
    rw [h2]
    rw [stripD_append_allWs _ [' ']
      (by intro x hx; simp at hx; subst hx; decide)]
    have h3 : stripD u = trimRightD v := rfl
    rw [h3]
    have htws : ∀ x ∈ (v.reverse.takeWhile Char.isWhitespace).reverse, x.isWhitespace = true :=
      takeWhile_rev_allWs v
    have htnw : (v.reverse.takeWhile Char.isWhitespace).reverse = [] ∨
        ∃ d ds, (v.reverse.takeWhile Char.isWhitespace).reverse = d :: ds ∧
          isWordChar d = false := by
      cases hx : (v.reverse.takeWhile Char.isWhitespace).reverse with
      | nil => exact Or.inl rfl
      | cons d ds =>
        refine Or.inr ⟨d, ds, rfl, ws_not_word d ?_⟩
        exact htws d (by rw [hx]; exact List.mem_cons_self d ds)
    have h4 : Legacy.stripSaltsGo [] v =
        Legacy.stripSaltsGo [] (trimRightD v) ++
          (v.reverse.takeWhile Char.isWhitespace).reverse := by
      conv_lhs => rw [trimRightD_decomp v]
      rw [stripSaltsGo_append _ htnw (trimRightD v) []]
      congr 1
      exact stripSaltsGo_allNonWord _ (fun d hd => ws_not_word d (htws d hd))
    rw [h4, stripD_append_allWs _ _ htws]

/-- Appending " " and a salt word to a term leaves the legacy
normalisation unchanged. -/
theorem norm_append_salt (s salt : String)
    (hs : salt ∈ ["hydrochloride", "bromide", "sulfate", "tartrate", "maleate", "hydrate"]) :
    Legacy.norm (s ++ " " ++ salt) = Legacy.norm s := by
  have hdata : (s ++ " " ++ salt).data = s.data ++ (' ' :: salt.data) := by
    simp [String.data_append]
  unfold Legacy.norm
  rw [hdata]
  congr 1
  have hs' : salt = "hydrochloride" ∨ salt = "bromide" ∨ salt = "sulfate" ∨
      salt = "tartrate" ∨ salt = "maleate" ∨ salt = "hydrate" := by
    simpa using hs
  rcases hs' with rfl | rfl | rfl | rfl | rfl | rfl
  · exact normChars_append_wordSalt s.data
      ['h', 'y', 'd', 'r', 'o', 'c', 'h', 'l', 'o', 'r', 'i', 'd'] 'e'
      (by decide) (by decide) (by decide)
  · exact normChars_append_wordSalt s.data ['b', 'r', 'o', 'm', 'i', 'd'] 'e'
      (by decide) (by decide) (by decide)
  · exact normChars_append_wordSalt s.data ['s', 'u', 'l', 'f', 'a', 't'] 'e'
      (by decide) (by decide) (by decide)
  · exact normChars_append_wordSalt s.data ['t', 'a', 'r', 't', 'r', 'a', 't'] 'e'
      (by decide) (by decide) (by decide)
  · exact normChars_append_wordSalt s.data ['m', 'a', 'l', 'e', 'a', 't'] 'e'
      (by decide) (by decide) (by decide)
  · exact normChars_append_wordSalt s.data ['h', 'y', 'd', 'r', 'a', 't'] 'e'
      (by decide) (by decide) (by decide)

/-- C5: the salt-stripping normaliser is the one of judge_legacy.py:
it lower-cases, trims, erases the salt words and collapses internal
whitespace (the concrete conjunct shows all four on one input), and
consequently the legacy judge gives the same verdict for any term with
a salt suffix appended as for the bare term, over every reference
index, lookup oracle, sport and query.  judge.py does not strip salts
(see the counterexample). -/
theorem C5_legacy_salt_invariance :
    (∀ (gas : Nat) (tbl : Legacy.LTables) (lk : String → Legacy.LookupResult)
       (term sport : String) (period route : Option String) (dose : Option ℚ)
       (salt : String),
       salt ∈ ["hydrochloride", "bromide", "sulfate", "tartrate", "maleate", "hydrate"] →
       Legacy.judgeLGas gas tbl lk (term ++ " " ++ salt) sport period route dose =
         Legacy.judgeLGas gas tbl lk term sport period route dose) ∧
    Legacy.norm " Salbutamol  Sulfate " = "salbutamol" := by
  constructor
  · intro gas tbl lk term sport period route dose salt hs
    cases gas with
    | zero => rfl
    | succ gas =>
      simp only [Legacy.judgeLGas]
      rw [norm_append_salt term salt hs]
  · decide

/-- C5 witness: the invariance applied to a concrete term and salt. -/
theorem C5_witness :
    Legacy.judgeLGas 1 emptyLTables lkNone ("x" ++ " " ++ "sulfate") "GEN" none none none =
      Legacy.judgeLGas 1 emptyLTables lkNone "x" "GEN" none none none :=
  C5_legacy_salt_invariance.1 1 emptyLTables lkNone "x" "GEN" none none none "sulfate"
    (by decide)

end Cleathlete
